import Mathlib

/-
  Verification development for the RAG WhatsApp chatbot repository
  (fadlyhts/rag-wa-chatbot).

  Shallow embedding conventions:
  * Python `str` values are modelled as `List Char` (`Str`), so that every
    string primitive used by the code (strip, split, replace, join, slicing)
    is a structural, kernel-computable Lean function with exactly Python's
    semantics on the characters that occur.
  * Python floats (similarity scores) are modelled as rationals `ℚ`; only
    their ordering and equality matter to the code under verification.
  * Exceptions are modelled with `Except String`; a `try/except` block is a
    `match` on the `Except` value of the translated block body.
  * Network collaborators (OpenAI/Gemini API, Qdrant, Redis) are inputs of
    the model: pure functions or `Except`-valued functions supplied as
    parameters, so theorems quantify over every behaviour of the
    collaborator.  Wall-clock timing fields (`*_time_ms`) and logging are
    not modelled.
  * Thread scheduling inside the OCR worker pool is erased: each page's
    result is written to a slot addressed by the page index, so the combined
    outcome is independent of completion order and is modelled as a map.
-/

set_option maxRecDepth 4000

namespace RagWa

/-! ## Python string primitives (`List Char` model of `str`) -/

/-- Python strings, modelled as their list of code points. -/
abbrev Str := List Char

/-- Code points of a Lean string literal. -/
def strOf (s : String) : Str := s.data

/-- Whitespace characters relevant to the repository's texts; Python
`str.strip()` / `str.split()` whitespace. -/
def isPySpace (c : Char) : Bool :=
  c == ' ' || c == '\n' || c == '\t' || c == '\r'

/-- Python `s.strip()`. -/
def pyStrip (s : Str) : Str :=
  ((s.dropWhile isPySpace).reverse.dropWhile isPySpace).reverse

/-- Python `s.split('. ')`: leftmost, non-overlapping matches of the
two-character separator used by `DocumentProcessor.chunk_text`.
`"".split('. ') == [""]`. -/
def splitDot : Str → List Str
  | [] => [[]]
  | '.' :: ' ' :: rest => [] :: splitDot rest
  | c :: rest =>
    match splitDot rest with
    | [] => [[c]]
    | h :: t => (c :: h) :: t

/-- Auxiliary for Python `s.split()` (split on whitespace runs, no empty
parts); `acc` is the current word, reversed. -/
def splitWsAux : Str → Str → List Str
  | [], acc => if acc = [] then [] else [acc.reverse]
  | c :: rest, acc =>
    if isPySpace c then
      if acc = [] then splitWsAux rest [] else acc.reverse :: splitWsAux rest []
    else splitWsAux rest (c :: acc)

/-- Python `s.split()` with no argument. -/
def splitWs (s : Str) : List Str := splitWsAux s []

/-- Python `sep.join(parts)`. -/
def joinSep (sep : Str) : List Str → Str
  | [] => []
  | [x] => x
  | x :: y :: rest => x ++ sep ++ joinSep sep (y :: rest)

/-- Python `s.replace('\n', ' ')` (single-character replacement). -/
def pyReplaceNl (s : Str) : Str :=
  s.map (fun c => if c == '\n' then ' ' else c)

/-- Python `x or default` for an optional integer argument: `None` and `0`
(falsy) are replaced by the default.  This is how `Retriever.retrieve`,
`VectorStore.search` and `DocumentProcessor.chunk_text` apply their
configured defaults. -/
def pyOrNat (x : Option Nat) (d : Nat) : Nat :=
  match x with
  | none => d
  | some 0 => d
  | some (Nat.succ k) => Nat.succ k

/-- Python `x or default` for an optional float argument: `None` and `0.0`
are falsy and replaced by the default. -/
def pyOrQ (x : Option ℚ) (d : ℚ) : ℚ :=
  match x with
  | none => d
  | some q => if q = 0 then d else q

/-! ## Tokenizer/Chunker (`app/rag/document_processor.py`)

`DocumentProcessor.count_tokens` uses the `tiktoken` encoder when available
and otherwise the estimate `len(text) // 4`.  The token counter is a
parameter `tok` of the chunking functions; `approxTok` is the code's own
fallback estimator, used for concrete evaluations. -/

/-- Fallback of `DocumentProcessor.count_tokens`: `len(text) // 4`. -/
def approxTok (s : Str) : Nat := s.length / 4

/-- One iteration's sentence preparation in `chunk_text`:
`sentence = sentence.strip() + ". "`. -/
def procSent (s : Str) : Str := pyStrip s ++ strOf ". "

/-- The loop of `DocumentProcessor.chunk_text` (lines 364-391), translated
statement by statement.  State: emitted `chunks`, the accumulating
`current` chunk and its running token count `curTok`; the first list
argument is the remaining sentences. -/
def chunkLoop (tok : Str → Nat) (chunkSize overlap : Nat) :
    List Str → List Str → Str → Nat → List Str
  | [], chunks, current, _ =>
    if current = [] then chunks else chunks ++ [pyStrip current]
  | s :: rest, chunks, current, curTok =>
    let sentence := procSent s
    let st := tok sentence
    if curTok + st ≤ chunkSize then
      chunkLoop tok chunkSize overlap rest chunks (current ++ sentence) (curTok + st)
    else
      let closed := if current = [] then chunks else chunks ++ [pyStrip current]
      if 0 < overlap ∧ closed ≠ [] then
        let ov := current.drop (current.length - overlap * 4)
        chunkLoop tok chunkSize overlap rest closed (ov ++ sentence) (tok (ov ++ sentence))
      else
        chunkLoop tok chunkSize overlap rest closed sentence st

/-- `DocumentProcessor.chunk_text` after its `or`-defaulting of the
`chunk_size` and `overlap` arguments has been resolved: split on `'. '`
after replacing newlines by spaces, then run the packing loop. -/
def chunkTextCore (tok : Str → Nat) (chunkSize overlap : Nat) (text : Str) : List Str :=
  chunkLoop tok chunkSize overlap (splitDot (pyReplaceNl text)) [] [] 0

/-- `DocumentProcessor.chunk_text(text, chunk_size, overlap)` including the
falsy-value defaulting `chunk_size = chunk_size or self.chunk_size` and
`overlap = overlap or self.chunk_overlap` against the configured values. -/
def chunkText (tok : Str → Nat) (cfgChunkSize cfgOverlap : Nat)
    (chunkSize overlap : Option Nat) (text : Str) : List Str :=
  chunkTextCore tok (pyOrNat chunkSize cfgChunkSize) (pyOrNat overlap cfgOverlap) text

/-- Sentences of a text exactly as the chunk loop processes them. -/
def sentencesOf (text : Str) : List Str :=
  (splitDot (pyReplaceNl text)).map procSent

/-! ## Embedding cache and providers
(`app/rag/embeddings.py`, `app/rag/embeddings_gemini.py`)

The Redis store is modelled as an association list (newest entry first, as
`SETEX` overwrites); `md5hex` — the hex digest of `hashlib.md5` — is an
arbitrary function parameter, since no claim depends on the digest values
themselves.  TTL expiry and Redis connection errors (which the code absorbs
into a cache miss / skipped write) are not modelled; `cache_enabled = false`
covers the degraded path.  Embedding services return, besides the vectors
and the final cache, the number of provider API calls issued. -/

/-- Embedding vectors (`List[float]`). -/
abbrev Vec := List ℚ

/-- The Redis-backed embedding cache contents. -/
structure EmbCache where
  entries : List (Str × Vec)
deriving DecidableEq

/-- Redis `get`. -/
def cacheLookup (c : EmbCache) (k : Str) : Option Vec :=
  (c.entries.find? (fun p => p.1 == k)).map Prod.snd

/-- Redis `setex` (TTL not modelled; overwrite modelled by shadowing). -/
def cacheStore (c : EmbCache) (k : Str) (v : Vec) : EmbCache :=
  ⟨(k, v) :: c.entries⟩

/-- State of `EmbeddingsService` (OpenAI): the configured embedding model,
the `cache_enabled` flag, and the provider call
`client.embeddings.create(model=self.model, input=text)`. -/
structure OpenAIEmbeddings where
  model : Str
  cacheEnabled : Bool
  provider : Str → Vec

/-- `EmbeddingsService._get_cache_key`: `f"emb:{md5(text).hexdigest()}"`.
The service's `model` is not part of the key, exactly as in the source. -/
def openaiCacheKey (_svc : OpenAIEmbeddings) (md5hex : Str → Str) (text : Str) : Str :=
  strOf "emb:" ++ md5hex text

/-- `EmbeddingsService._get_from_cache`. -/
def openaiGetFromCache (svc : OpenAIEmbeddings) (md5hex : Str → Str)
    (c : EmbCache) (text : Str) : Option Vec :=
  if svc.cacheEnabled then cacheLookup c (openaiCacheKey svc md5hex text) else none

/-- `EmbeddingsService._save_to_cache`. -/
def openaiSaveToCache (svc : OpenAIEmbeddings) (md5hex : Str → Str)
    (c : EmbCache) (text : Str) (v : Vec) : EmbCache :=
  if svc.cacheEnabled then cacheStore c (openaiCacheKey svc md5hex text) v else c

/-- `EmbeddingsService.generate_embedding`: consult cache (`if cached:`
treats an empty cached list as a miss, Python falsiness), otherwise one
provider call, cached before returning.  Result: (vector, cache, provider
calls issued). -/
def openaiGenerateEmbedding (svc : OpenAIEmbeddings) (md5hex : Str → Str)
    (c : EmbCache) (text : Str) : Vec × EmbCache × Nat :=
  match openaiGetFromCache svc md5hex c text with
  | some cached =>
    if cached = [] then
      let e := svc.provider text
      (e, openaiSaveToCache svc md5hex c text e, 1)
    else (cached, c, 0)
  | none =>
    let e := svc.provider text
    (e, openaiSaveToCache svc md5hex c text e, 1)

/-- `EmbeddingsService.generate_embedding_async`: identical body over the
async client. -/
def openaiGenerateEmbeddingAsync : OpenAIEmbeddings → (Str → Str) → EmbCache → Str →
    Vec × EmbCache × Nat :=
  openaiGenerateEmbedding

/-- `EmbeddingsService.generate_embeddings_batch`: one
`embeddings.create` call with the whole input list — the cache is NOT
consulted; results are written to the cache afterwards. -/
def openaiGenerateEmbeddingsBatch (svc : OpenAIEmbeddings) (md5hex : Str → Str)
    (c : EmbCache) (texts : List Str) : List Vec × EmbCache × Nat :=
  if texts = [] then ([], c, 0)
  else
    let embs := texts.map svc.provider
    let cNew := (texts.zip embs).foldl
      (fun acc tv => openaiSaveToCache svc md5hex acc tv.1 tv.2) c
    (embs, cNew, 1)

/-- `EmbeddingsService.generate_embeddings_batch_async`: identical body
over the async client. -/
def openaiGenerateEmbeddingsBatchAsync : OpenAIEmbeddings → (Str → Str) → EmbCache →
    List Str → List Vec × EmbCache × Nat :=
  openaiGenerateEmbeddingsBatch

/-- State of `GeminiEmbeddingsService`. -/
structure GeminiEmbeddings where
  modelName : Str
  cacheEnabled : Bool
  provider : Str → Vec

/-- `GeminiEmbeddingsService._get_cache_key`:
`f"emb:gemini:{md5(text).hexdigest()}"`; again no model identity. -/
def geminiCacheKey (_svc : GeminiEmbeddings) (md5hex : Str → Str) (text : Str) : Str :=
  strOf "emb:gemini:" ++ md5hex text

/-- `GeminiEmbeddingsService._get_from_cache`. -/
def geminiGetFromCache (svc : GeminiEmbeddings) (md5hex : Str → Str)
    (c : EmbCache) (text : Str) : Option Vec :=
  if svc.cacheEnabled then cacheLookup c (geminiCacheKey svc md5hex text) else none

/-- `GeminiEmbeddingsService._save_to_cache`. -/
def geminiSaveToCache (svc : GeminiEmbeddings) (md5hex : Str → Str)
    (c : EmbCache) (text : Str) (v : Vec) : EmbCache :=
  if svc.cacheEnabled then cacheStore c (geminiCacheKey svc md5hex text) v else c

/-- `GeminiEmbeddingsService.generate_embedding`. -/
def geminiGenerateEmbedding (svc : GeminiEmbeddings) (md5hex : Str → Str)
    (c : EmbCache) (text : Str) : Vec × EmbCache × Nat :=
  match geminiGetFromCache svc md5hex c text with
  | some cached =>
    if cached = [] then
      let e := svc.provider text
      (e, geminiSaveToCache svc md5hex c text e, 1)
    else (cached, c, 0)
  | none =>
    let e := svc.provider text
    (e, geminiSaveToCache svc md5hex c text e, 1)

/-- `GeminiEmbeddingsService.generate_embedding_async` returns
`self.generate_embedding(text)`. -/
def geminiGenerateEmbeddingAsync : GeminiEmbeddings → (Str → Str) → EmbCache → Str →
    Vec × EmbCache × Nat :=
  geminiGenerateEmbedding

/-- First-pass cache probe of `GeminiEmbeddingsService.
generate_embeddings_batch` for one text (`if cached:` Python falsiness). -/
def geminiCacheProbe (svc : GeminiEmbeddings) (md5hex : Str → Str)
    (c : EmbCache) (text : Str) : Option Vec :=
  match geminiGetFromCache svc md5hex c text with
  | some cached => if cached = [] then none else some cached
  | none => none

/-- Fill the `None` placeholders of the first pass with the freshly
generated embeddings, in order (`embeddings[original_index] = embedding`). -/
def fillPlaceholders : List (Option Vec) → List Vec → List Vec
  | [], _ => []
  | some v :: rest, fresh => v :: fillPlaceholders rest fresh
  | none :: rest, [] => [] :: fillPlaceholders rest []
  | none :: rest, n :: fresh => n :: fillPlaceholders rest fresh

/-- `GeminiEmbeddingsService.generate_embeddings_batch`: probe the cache
for every text, then generate the misses through the batch API in chunks
of at most 100 texts per call (`range(0, len(texts_to_generate), 100)`
issues `ceil(len/100)` calls), fill the placeholders in order and cache
the new embeddings. -/
def geminiGenerateEmbeddingsBatch (svc : GeminiEmbeddings) (md5hex : Str → Str)
    (c : EmbCache) (texts : List Str) : List Vec × EmbCache × Nat :=
  if texts = [] then ([], c, 0)
  else
    let firstPass := texts.map (geminiCacheProbe svc md5hex c)
    let toGenerate := texts.filter (fun t => geminiCacheProbe svc md5hex c t = none)
    let fresh := toGenerate.map svc.provider
    let out := fillPlaceholders firstPass fresh
    let cNew := (toGenerate.zip fresh).foldl
      (fun acc tv => geminiSaveToCache svc md5hex acc tv.1 tv.2) c
    (out, cNew, (toGenerate.length + 99) / 100)

/-- `GeminiEmbeddingsService.generate_embeddings_batch_async` returns
`self.generate_embeddings_batch(texts)`. -/
def geminiGenerateEmbeddingsBatchAsync : GeminiEmbeddings → (Str → Str) → EmbCache →
    List Str → List Vec × EmbCache × Nat :=
  geminiGenerateEmbeddingsBatch

/-! ## Vector store and retriever
(`app/rag/vector_store.py`, `app/rag/retriever.py`)

The Qdrant service is an external collaborator: `client.search` is a
function parameter returning `Except` (connection/`_ensure_initialized`
failures raise).  Scores are rationals. -/

/-- Metadata filters: the equality-conjunction dict passed by callers. -/
abbrev Filters := List (Str × Str)

/-- Payload of a vector-index point as read back from a search hit. -/
structure Payload where
  title : Option Str
  content : Option Str
deriving DecidableEq

/-- One raw Qdrant search hit. -/
structure QdrantHit where
  id : Str
  score : ℚ
  payload : Payload
deriving DecidableEq

/-- One formatted search result (`{"id", "score", "payload"}` dict built by
`VectorStore.search`). -/
structure RetrievedDoc where
  id : Str
  score : ℚ
  payload : Payload
deriving DecidableEq

/-- RAG configuration values used by retrieval and chunking
(`app/rag/config.py`). -/
structure RagCfg where
  topK : Nat
  minScore : ℚ
  chunkSize : Nat
  chunkOverlap : Nat
deriving DecidableEq

/-- Defaults of `app/config.py`: `RAG_TOP_K = 5`, `RAG_MIN_SCORE = 0.7`,
`RAG_CHUNK_SIZE = 512`, `RAG_CHUNK_OVERLAP = 50`. -/
def defaultRagCfg : RagCfg := ⟨5, 7 / 10, 512, 50⟩

/-- The Qdrant collaborator (`self.client.search` plus the lazy
(re)connection, which can fail the operation). -/
structure VectorBackend where
  search : Vec → Nat → ℚ → Option Filters → Except String (List QdrantHit)

/-- Filter construction in `VectorStore.search`: `if filter_conditions:`
(falsy `None`/`{}` mean no filter). -/
def buildQueryFilter (filters : Option Filters) : Option Filters :=
  match filters with
  | none => none
  | some l => if l = [] then none else some l

/-- `VectorStore.search`: falsy-default `limit` and `score_threshold`
against the config, build the filter, call the service, format hits. -/
def vectorStoreSearch (backend : VectorBackend) (cfg : RagCfg) (queryVector : Vec)
    (limit : Option Nat) (scoreThreshold : Option ℚ) (filters : Option Filters) :
    Except String (List RetrievedDoc) :=
  let lim := pyOrNat limit cfg.topK
  let thr := pyOrQ scoreThreshold cfg.minScore
  match backend.search queryVector lim thr (buildQueryFilter filters) with
  | Except.error e => Except.error e
  | Except.ok hits => Except.ok (hits.map (fun h => ⟨h.id, h.score, h.payload⟩))

/-- Descending-score order used by the retriever's re-sort. -/
def scoreGe (a b : RetrievedDoc) : Prop := b.score ≤ a.score

instance : DecidableRel scoreGe :=
  fun a b => inferInstanceAs (Decidable (b.score ≤ a.score))

instance : IsTotal RetrievedDoc scoreGe :=
  ⟨fun a b => le_total b.score a.score⟩

instance : IsTrans RetrievedDoc scoreGe :=
  ⟨fun _ _ _ h1 h2 => le_trans h2 h1⟩

/-- Dependencies of `Retriever`: the embeddings service (single-text embed,
sync and async) and the vector store backend. -/
structure RetrieverEnv where
  embed : Str → Except String Vec
  embedAsync : Str → Except String Vec
  backend : VectorBackend

/-- Body of `Retriever.retrieve` (the `try` block): embed the query,
falsy-default `top_k` and `min_score`, search, then re-sort by score
descending (`sorted(..., reverse=True)` is a stable sort, modelled by
insertion sort, which is stable for this order). -/
def retrieveBody (env : RetrieverEnv) (cfg : RagCfg) (query : Str)
    (topK : Option Nat) (minScore : Option ℚ) (filters : Option Filters) :
    Except String (List RetrievedDoc) :=
  match env.embed query with
  | Except.error e => Except.error e
  | Except.ok qv =>
    let k := pyOrNat topK cfg.topK
    let m := pyOrQ minScore cfg.minScore
    match vectorStoreSearch env.backend cfg qv (some k) (some m) filters with
    | Except.error e => Except.error e
    | Except.ok res => Except.ok (List.insertionSort scoreGe res)

/-- `Retriever.retrieve`: any internal error degrades to `[]`. -/
def retrieve (env : RetrieverEnv) (cfg : RagCfg) (query : Str)
    (topK : Option Nat) (minScore : Option ℚ) (filters : Option Filters) :
    List RetrievedDoc :=
  match retrieveBody env cfg query topK minScore filters with
  | Except.ok r => r
  | Except.error _ => []

/-- Body of `Retriever.retrieve_async`: same pipeline over the async
embedding call. -/
def retrieveAsyncBody (env : RetrieverEnv) (cfg : RagCfg) (query : Str)
    (topK : Option Nat) (minScore : Option ℚ) (filters : Option Filters) :
    Except String (List RetrievedDoc) :=
  match env.embedAsync query with
  | Except.error e => Except.error e
  | Except.ok qv =>
    let k := pyOrNat topK cfg.topK
    let m := pyOrQ minScore cfg.minScore
    match vectorStoreSearch env.backend cfg qv (some k) (some m) filters with
    | Except.error e => Except.error e
    | Except.ok res => Except.ok (List.insertionSort scoreGe res)

/-- `Retriever.retrieve_async`. -/
def retrieveAsync (env : RetrieverEnv) (cfg : RagCfg) (query : Str)
    (topK : Option Nat) (minScore : Option ℚ) (filters : Option Filters) :
    List RetrievedDoc :=
  match retrieveAsyncBody env cfg query topK minScore filters with
  | Except.ok r => r
  | Except.error _ => []

/-! ## Prompt templates and output formatting
(`app/rag/prompt_templates.py`, `Generator.format_for_whatsapp`) -/

/-- One role-tagged message. -/
structure ChatMsg where
  role : Str
  content : Str
deriving DecidableEq

/-- Generator reply: the `{'text', 'tokens', 'input_tokens',
'output_tokens'}` dict. -/
structure LlmResponse where
  text : Str
  tokens : Nat
  inputTokens : Nat
  outputTokens : Nat
deriving DecidableEq

/-- `SYSTEM_PROMPT` up to its `{context}` placeholder. -/
def SYSTEM_PROMPT_PRE : String :=
  "You are an intelligent AI assistant for a WhatsApp chatbot. Your role is to provide helpful, accurate, and friendly responses based on the provided context.\n\nGuidelines:\n- Answer questions accurately using the context provided\n- Be concise and clear - this is WhatsApp, keep responses brief\n- Use a friendly, conversational tone with appropriate emojis\n- If the context doesn't contain the answer, politely say you don't have that information\n- Never make up information that's not in the context\n- Format responses for readability (use line breaks, bullet points when needed)\n- If relevant, provide actionable next steps\n- Be respectful and professional at all times\n\nContext Information:\n"

/-- `SYSTEM_PROMPT` between `{context}` and `{conversation_history}`. -/
def SYSTEM_PROMPT_MID : String := "\n\nConversation History:\n"

/-- `SYSTEM_PROMPT` after `{conversation_history}`. -/
def SYSTEM_PROMPT_POST : String :=
  "\n\nNow, answer the user's question based on the context above."

/-- `FALLBACK_PROMPT` up to its `{conversation_history}` placeholder. -/
def FALLBACK_PROMPT_PRE : String :=
  "You are a helpful AI assistant for a WhatsApp chatbot. The knowledge base doesn't contain specific information to answer this question, but you should provide a helpful response.\n\nGuidelines:\n- Acknowledge that you don't have specific information about their question\n- Provide general helpful information if possible\n- Suggest alternative ways they can get help\n- Be friendly and apologetic\n- Keep it brief and conversational\n\nConversation History:\n"

/-- `FALLBACK_PROMPT` between `{conversation_history}` and `{query}`. -/
def FALLBACK_PROMPT_MID : String := "\n\nUser Question: "

/-- `FALLBACK_PROMPT` after `{query}`. -/
def FALLBACK_PROMPT_POST : String := "\n\nProvide a helpful, friendly response."

/-- `build_system_message`: `SYSTEM_PROMPT.format(context, conversation_history)`. -/
def buildSystemMessage (context conversationHistory : Str) : Str :=
  strOf SYSTEM_PROMPT_PRE ++ context ++ strOf SYSTEM_PROMPT_MID ++ conversationHistory
    ++ strOf SYSTEM_PROMPT_POST

/-- `build_fallback_message`: `FALLBACK_PROMPT.format(query, conversation_history)`. -/
def buildFallbackMessage (query conversationHistory : Str) : Str :=
  strOf FALLBACK_PROMPT_PRE ++ conversationHistory ++ strOf FALLBACK_PROMPT_MID ++ query
    ++ strOf FALLBACK_PROMPT_POST

/-- `format_conversation_history` with its default `max_messages = 5`
window (`messages[-5:]`). -/
def formatConversationHistory (messages : List ChatMsg) : Str :=
  if messages = [] then strOf "No previous conversation."
  else
    joinSep (strOf "\n") ((messages.drop (messages.length - 5)).map (fun m =>
      (if m.role = strOf "user" then strOf "User" else strOf "Assistant")
        ++ strOf ": " ++ m.content))

/-- Python `enumerate(l, 1)`. -/
def enumFrom1 (l : List α) : List (Nat × α) :=
  l.enum.map (fun p => (p.1 + 1, p.2))

/-- Decimal rendering of a non-negative integer, as Python `f"{n}"`. -/
def digitCh (d : Nat) : Char := Char.ofNat (48 + d)

/-- Decimal digit string of a natural number. -/
def natStr (n : Nat) : Str :=
  if n = 0 then ['0'] else (Nat.digits 10 n).reverse.map digitCh

/-- `format_context` (`app/rag/prompt_templates.py`): number the retrieved
docs from 1 and render each as a labeled source block.  `fmt2` renders the
float score as Python `f"{score:.2f}"` (float formatting is outside the
rational score model, so the renderer is a parameter). -/
def formatContext (fmt2 : ℚ → Str) (retrievedDocs : List RetrievedDoc) : Str :=
  if retrievedDocs = [] then strOf "No relevant information found in the knowledge base."
  else
    joinSep (strOf "\n\n") ((enumFrom1 retrievedDocs).map (fun idoc =>
      strOf "--- Source " ++ natStr idoc.1 ++ strOf ": "
        ++ idoc.2.payload.title.getD (strOf "Document")
        ++ strOf " (Relevance: " ++ fmt2 idoc.2.score ++ strOf ") ---" ++ strOf "\n"
        ++ idoc.2.payload.content.getD []))

/-- `build_messages`. -/
def buildMessages (query context conversationHistory : Str) : List ChatMsg :=
  [⟨strOf "system", buildSystemMessage context conversationHistory⟩,
   ⟨strOf "user", query⟩]

/-- `build_fallback_messages`. -/
def buildFallbackMessages (query conversationHistory : Str) : List ChatMsg :=
  [⟨strOf "system", buildFallbackMessage query conversationHistory⟩,
   ⟨strOf "user", query⟩]

/-- Python `text.split('\n\n')`, used by `format_for_whatsapp`. -/
def splitNlNl : Str → List Str
  | [] => [[]]
  | '\n' :: '\n' :: rest => [] :: splitNlNl rest
  | c :: rest =>
    match splitNlNl rest with
    | [] => [[c]]
    | h :: t => (c :: h) :: t

/-- Paragraph-packing loop of `Generator.format_for_whatsapp`. -/
def formatForWhatsappLoop (maxLength : Nat) :
    List Str → List Str → Str → List Str
  | [], chunks, current =>
    if current = [] then chunks else chunks ++ [pyStrip current]
  | para :: rest, chunks, current =>
    if current.length + para.length + 2 ≤ maxLength then
      formatForWhatsappLoop maxLength rest chunks (current ++ para ++ strOf "\n\n")
    else
      let closed := if current = [] then chunks else chunks ++ [pyStrip current]
      formatForWhatsappLoop maxLength rest closed (para ++ strOf "\n\n")

/-- `Generator.format_for_whatsapp(text, max_length)`: short texts pass
through whole; long texts are split at paragraph boundaries. -/
def formatForWhatsapp (text : Str) (maxLength : Nat) : List Str :=
  if text.length ≤ maxLength then [text]
  else formatForWhatsappLoop maxLength (splitNlNl text) [] []

/-! ## RAG orchestrator (`app/rag/chain.py`) -/

/-- The result `text` field: a single message string, or a list when the
WhatsApp formatting split the answer. -/
inductive TextOut where
  | single : Str → TextOut
  | multi : List Str → TextOut
deriving DecidableEq

/-- Per-passage source attribution in the chain result. -/
structure SourceRef where
  id : Str
  title : Str
  score : ℚ
deriving DecidableEq

/-- The dict returned by `RAGChain.generate_response` (wall-clock
`*_time_ms` fields are not modelled). -/
structure RagResult where
  text : TextOut
  sources : List SourceRef
  scores : List ℚ
  tokens : Nat
  docsRetrieved : Nat
  error : Option String
deriving DecidableEq

/-- `RAGChain._preprocess_query`: strip, then collapse whitespace runs. -/
def preprocessQuery (query : Str) : Str :=
  joinSep (strOf " ") (splitWs (pyStrip query))

/-- Collaborators of `RAGChain`: the retriever (sync/async), the generator
(sync/async) and the score renderer for context formatting.  Each fallible
step is `Except`-valued so theorems range over every failure behaviour. -/
structure ChainEnv where
  retrieve : Str → Option Filters → Except String (List RetrievedDoc)
  retrieveAsync : Str → Option Filters → Except String (List RetrievedDoc)
  generate : List ChatMsg → Except String LlmResponse
  generateAsync : List ChatMsg → Except String LlmResponse
  fmt2 : ℚ → Str

/-- The `try` block of `RAGChain.generate_response`, steps 1-7, translated
statement by statement. -/
def chainBody (env : ChainEnv) (query : Str) (conversationHistory : Option (List ChatMsg))
    (filters : Option Filters) : Except String RagResult := do
  let q := preprocessQuery query
  let retrievedDocs ← env.retrieve q filters
  let context := formatContext env.fmt2 retrievedDocs
  let historyStr := formatConversationHistory (conversationHistory.getD [])
  let messages :=
    if retrievedDocs ≠ [] then buildMessages q context historyStr
    else buildFallbackMessages q historyStr
  let llm ← env.generate messages
  let formatted := formatForWhatsapp llm.text 4000
  pure
    { text := if formatted.length = 1 then TextOut.single (formatted.headD [])
              else TextOut.multi formatted
      sources := retrievedDocs.map (fun d =>
        ⟨d.id, d.payload.title.getD (strOf "Untitled"), d.score⟩)
      scores := retrievedDocs.map (fun d => d.score)
      tokens := llm.tokens
      docsRetrieved := retrievedDocs.length
      error := none }

/-- The canned apologetic reply of the chain's `except` branch. -/
def apologeticText : Str :=
  strOf "I apologize, but I'm having trouble processing your request right now. Please try again in a moment. 😊"

/-- The fallback dict of the chain's `except` branch. -/
def fallbackRagResult (e : String) : RagResult :=
  { text := TextOut.single apologeticText
    sources := []
    scores := []
    tokens := 0
    docsRetrieved := 0
    error := some e }

/-- `RAGChain.generate_response`: the `try` block, with any exception
recovered into the fallback dict. -/
def generateResponse (env : ChainEnv) (query : Str)
    (conversationHistory : Option (List ChatMsg)) (filters : Option Filters) : RagResult :=
  match chainBody env query conversationHistory filters with
  | Except.ok r => r
  | Except.error e => fallbackRagResult e

/-- The `try` block of `RAGChain.generate_response_async` (identical to the
sync body except for the async retriever and generator calls). -/
def chainBodyAsync (env : ChainEnv) (query : Str)
    (conversationHistory : Option (List ChatMsg)) (filters : Option Filters) :
    Except String RagResult := do
  let q := preprocessQuery query
  let retrievedDocs ← env.retrieveAsync q filters
  let context := formatContext env.fmt2 retrievedDocs
  let historyStr := formatConversationHistory (conversationHistory.getD [])
  let messages :=
    if retrievedDocs ≠ [] then buildMessages q context historyStr
    else buildFallbackMessages q historyStr
  let llm ← env.generateAsync messages
  let formatted := formatForWhatsapp llm.text 4000
  pure
    { text := if formatted.length = 1 then TextOut.single (formatted.headD [])
              else TextOut.multi formatted
      sources := retrievedDocs.map (fun d =>
        ⟨d.id, d.payload.title.getD (strOf "Untitled"), d.score⟩)
      scores := retrievedDocs.map (fun d => d.score)
      tokens := llm.tokens
      docsRetrieved := retrievedDocs.length
      error := none }

/-- `RAGChain.generate_response_async`. -/
def generateResponseAsync (env : ChainEnv) (query : Str)
    (conversationHistory : Option (List ChatMsg)) (filters : Option Filters) : RagResult :=
  match chainBodyAsync env query conversationHistory filters with
  | Except.ok r => r
  | Except.error e => fallbackRagResult e

/-! ## OCR extraction (`DocumentProcessor._read_pdf_ocr` and helpers,
`app/rag/ocr_config.py`)

A page is the outcome of `pytesseract.image_to_string` on its image:
either the recognized text or a raised error.  Worker-pool scheduling is
erased: in `_process_ocr_batch_parallel` every future writes
`page_texts[page_idx]`, so the combined result is independent of
completion order. -/

/-- Outcome of OCR on one page image. -/
abbrev PageOcr := Except String Str

/-- `_process_ocr_sequential`: accumulate `text += page_text + "\n\n"`,
skipping (`continue`) any page whose OCR raises. -/
def processOcrSequential (pages : List PageOcr) : Str :=
  pages.foldl
    (fun text p =>
      match p with
      | Except.ok pageText => text ++ pageText ++ strOf "\n\n"
      | Except.error _ => text)
    []

/-- Per-page contribution in `_process_ocr_sequential`, for reasoning:
the page text plus separator, or nothing for a failed page. -/
def okPart (p : PageOcr) : Str :=
  match p with
  | Except.ok t => t ++ strOf "\n\n"
  | Except.error _ => []

/-- `ocr_single_page` inside `_process_ocr_batch_parallel`: a failed page
yields the empty string (`return (page_idx, "")`). -/
def ocrSinglePage (p : PageOcr) : Str :=
  match p with
  | Except.ok t => t
  | Except.error _ => []

/-- `_process_ocr_batch_parallel`: every page of the batch is OCRed into
its slot of `page_texts` and the slots are joined with `"\n\n"`. -/
def processOcrBatchParallel (pages : List PageOcr) : Str :=
  joinSep (strOf "\n\n") (pages.map ocrSinglePage)

/-- `OCRConfig.get_batch_size` (defaults: `batch_size_adaptive = True`). -/
def getBatchSize (adaptive : Bool) (totalPages : Nat) : Nat :=
  if adaptive = false then min 8 (max 2 (totalPages / 6))
  else if totalPages ≤ 5 then totalPages
  else if totalPages ≤ 20 then min 4 (totalPages / 2)
  else if totalPages ≤ 50 then min 6 (totalPages / 4)
  else min 8 (totalPages / 6)

/-- `OCRConfig.get_worker_count`: `min(self.max_workers, batch_size)`. -/
def getWorkerCount (maxWorkers batchSize : Nat) : Nat :=
  min maxWorkers batchSize

/-- Split a list into consecutive chunks of `n` (the
`range(0, total_pages, batch_size)` loop); fuel-structured so it computes
in the kernel. -/
def listChunksAux (n : Nat) : Nat → List α → List (List α)
  | 0, _ => []
  | _, [] => []
  | Nat.succ fuel, l => l.take n :: listChunksAux n fuel (l.drop n)

/-- Consecutive chunks of size `n`. -/
def listChunks (n : Nat) (l : List α) : List (List α) :=
  listChunksAux n l.length l

/-- `_process_ocr_in_batches`: batch size from `get_batch_size`, each batch
OCRed by `_process_ocr_batch_parallel`, batch texts accumulated with
`all_text += batch_text`.  (This function has no caller in the
repository: see `readPdfOcrDispatch`.) -/
def processOcrInBatches (adaptive : Bool) (pages : List PageOcr) : Str :=
  ((listChunks (getBatchSize adaptive pages.length) pages).map
    processOcrBatchParallel).flatten

/-- The dispatch of `_read_pdf_ocr` (line 171 of
`app/rag/document_processor.py`): after converting pages to images it
runs `self._process_ocr_sequential(...)` — "Process pages sequentially
(more reliable than parallel)". -/
def readPdfOcrDispatch (pages : List PageOcr) : Str :=
  processOcrSequential pages

/-! ## Ingestion pipeline and deterministic point ids
(`app/services/file_processor.py`) -/

/-- `f"doc_{doc.id}_{doc_hash}_chunk_{i}"` where
`doc_hash = md5(f"{doc.id}_{doc.title}").hexdigest()[:8]`. -/
def pointId (md5hex : Str → Str) (docId : Nat) (title : Str) (i : Nat) : Str :=
  strOf "doc_" ++ natStr docId ++ strOf "_"
    ++ (md5hex (natStr docId ++ strOf "_" ++ title)).take 8
    ++ strOf "_chunk_" ++ natStr i

/-- `chunk_ids = [f"doc_{doc.id}_{doc_hash}_chunk_{i}" for i in range(len(chunks))]`. -/
def mkChunkIds (md5hex : Str → Str) (docId : Nat) (title : Str) (numChunks : Nat) :
    List Str :=
  (List.range numChunks).map (pointId md5hex docId title)

/-- Dependencies of `FileProcessor.process_document_async`: token counter,
md5 hex digest, RAG config, batch embeddings call and the Qdrant insert
(both fallible). -/
structure IngestDeps where
  tok : Str → Nat
  md5hex : Str → Str
  cfg : RagCfg
  embedBatch : List Str → Except String (List Vec)
  insertDocuments : List Str → List Vec → Except String Unit

/-- Observable outcome of one ingestion run: the document's final
`embedding_status`, `chunks_count`, the Qdrant point ids written, and
`failed_reason`. -/
structure IngestOutcome where
  status : Str
  chunksCount : Nat
  pointIds : List Str
  failedReason : Option String
deriving DecidableEq

/-- The `try` body of `FileProcessor.process_document_async` after the
record lookup: wrap extraction errors, reject empty text, chunk
(`chunk_text(text)` with both size arguments defaulted), embed in one
batched call, derive point ids, insert.  Returns (chunks, chunk ids). -/
def processDocumentBody (deps : IngestDeps) (docId : Nat) (title : Str)
    (extracted : Except String Str) : Except String (List Str × List Str) :=
  match extracted with
  | Except.error e => Except.error ("Text extraction failed: " ++ e)
  | Except.ok text =>
    if pyStrip text = [] then Except.error "Document is empty after extraction"
    else
      let chunks := chunkText deps.tok deps.cfg.chunkSize deps.cfg.chunkOverlap none none text
      match deps.embedBatch chunks with
      | Except.error e => Except.error e
      | Except.ok embeddings =>
        let chunkIds := mkChunkIds deps.md5hex docId title chunks.length
        match deps.insertDocuments chunkIds embeddings with
        | Except.error e => Except.error e
        | Except.ok _ => Except.ok (chunks, chunkIds)

/-- `FileProcessor.process_document_async`: success marks the document
`completed` with its chunk count; any exception marks it `failed` with the
reason truncated to 1000 characters. -/
def processDocumentAsyncModel (deps : IngestDeps) (docId : Nat) (title : Str)
    (extracted : Except String Str) : IngestOutcome :=
  match processDocumentBody deps docId title extracted with
  | Except.ok ci =>
    { status := strOf "completed"
      chunksCount := ci.1.length
      pointIds := ci.2
      failedReason := none }
  | Except.error e =>
    { status := strOf "failed"
      chunksCount := 0
      pointIds := []
      failedReason := some (e.take 1000) }

/-- `FileProcessor.reindex_document` deletes from Qdrant exactly the
`qdrant_point_id` values stored by the previous run, then resets the
document to `pending` so that `process_document_async` runs afresh. -/
def reindexDeletes (previous : IngestOutcome) : List Str :=
  previous.pointIds

/-! ## Concrete instances used by counterexamples and witnesses -/

/-- Stand-in md5 hex digest for concrete evaluations (the identity; every
statement about cache keys and point ids holds for an arbitrary digest
function, and concrete instances need a computable one). -/
def demoMd5 : Str → Str := fun s => s

/-- Provider returning the vector `[1]` for every text. -/
def demoProvider1 : Str → Vec := fun _ => [1]

/-- OpenAI embeddings service configured with the small embedding model. -/
def demoOpenAISmall : OpenAIEmbeddings :=
  ⟨strOf "text-embedding-3-small", true, demoProvider1⟩

/-- OpenAI embeddings service configured with the large embedding model
(different provider function, to make cross-model reads observable). -/
def demoOpenAILarge : OpenAIEmbeddings :=
  ⟨strOf "text-embedding-3-large", true, fun _ => [2]⟩

/-- Gemini embeddings service instance. -/
def demoGemini : GeminiEmbeddings :=
  ⟨strOf "models/text-embedding-004", true, demoProvider1⟩

/-- Cache holding a vector for the text `"x"` under the OpenAI key
produced by `demoMd5`. -/
def demoCacheX : EmbCache := ⟨[(strOf "emb:x", [2])]⟩

/-- Empty embedding cache. -/
def emptyCache : EmbCache := ⟨[]⟩

/-- Three OCR pages, the middle one failing. -/
def demoPages : List PageOcr :=
  [Except.ok (strOf "alpha"), Except.error "tesseract timeout", Except.ok (strOf "gamma")]

/-- Two successfully OCRed pages. -/
def demoPagesOk : List PageOcr :=
  [Except.ok (strOf "a"), Except.ok (strOf "b")]

/-- Payload with no title and no content. -/
def demoPayloadEmpty : Payload := ⟨none, none⟩

/-- Backend echoing the score threshold it was given as the score of a
single returned hit (makes the effective threshold observable). -/
def demoEchoBackend : VectorBackend :=
  ⟨fun _ _ thr _ => Except.ok [⟨strOf "p", thr, demoPayloadEmpty⟩]⟩

/-- Retriever environment over the echoing backend. -/
def demoEchoEnv : RetrieverEnv :=
  ⟨fun _ => Except.ok [1], fun _ => Except.ok [1], demoEchoBackend⟩

/-- Two stored hits with distinct scores. -/
def demoHits : List QdrantHit :=
  [⟨strOf "a", 9 / 10, demoPayloadEmpty⟩, ⟨strOf "b", 4 / 5, demoPayloadEmpty⟩]

/-- Backend honouring the Qdrant contract: it filters its stored hits by
the requested score threshold. -/
def demoFilterBackend : VectorBackend :=
  ⟨fun _ _ thr _ => Except.ok (demoHits.filter (fun h => decide (thr ≤ h.score)))⟩

/-- Retriever environment over the threshold-honouring backend. -/
def demoRetEnv : RetrieverEnv :=
  ⟨fun _ => Except.ok [1], fun _ => Except.ok [1], demoFilterBackend⟩

/-- Chain environment whose retriever raises (sync and async), for
exercising the orchestrator's except branch. -/
def demoFailChainEnv : ChainEnv :=
  ⟨fun _ _ => Except.error "Qdrant vector store is not available",
   fun _ _ => Except.error "Qdrant vector store is not available",
   fun _ => Except.error "OpenAI API error",
   fun _ => Except.error "OpenAI API error",
   fun _ => []⟩

/-- Ingestion dependencies with always-succeeding collaborators. -/
def demoIngestDeps : IngestDeps :=
  ⟨approxTok, demoMd5, defaultRagCfg,
   fun chunks => Except.ok (chunks.map (fun _ => [1])),
   fun _ _ => Except.ok ()⟩

/-- What the packing loop actually guarantees about one emitted chunk at
`overlap = 0`: the chunk is a trim of the concatenation of a non-empty
group of processed sentences, and either the group's per-sentence token
counts sum to at most `chunkSize`, or the group is one single sentence
whose own token count exceeds `chunkSize`. -/
def ChunkWithinBudget (tok : Str → Nat) (chunkSize : Nat) (sents : List Str) (c : Str) : Prop :=
  ∃ g : List Str, g ≠ [] ∧ (∀ x ∈ g, x ∈ sents) ∧ c = pyStrip g.flatten ∧
    ((g.map tok).sum ≤ chunkSize ∨ ∃ s, g = [s] ∧ chunkSize < tok s)

/-- Loop invariant for the accumulating chunk of `chunkLoop` at
`overlap = 0`: the current chunk is the concatenation of the sentence
group packed so far, and its running token count is the sum of their
per-sentence counts. -/
def CurOK (tok : Str → Nat) (N : Nat) (sents : List Str) (current : Str) (curTok : Nat) : Prop :=
  (current = [] ∧ curTok = 0) ∨
    ∃ g : List Str, g ≠ [] ∧ (∀ x ∈ g, x ∈ sents) ∧ current = g.flatten ∧
      curTok = (g.map tok).sum ∧ (curTok ≤ N ∨ ∃ s, g = [s] ∧ N < tok s)

/-! ## Helper lemmas -/

/-- The chunk-packing loop preserves the budget invariant (overlap 0). -/
theorem chunkLoop_budget (tok : Str → Nat) (N : Nat) (sents0 : List Str) :
    ∀ (sentences : List Str) (chunks : List Str) (current : Str) (curTok : Nat),
      (∀ s ∈ sentences, procSent s ∈ sents0) →
      (∀ c ∈ chunks, ChunkWithinBudget tok N sents0 c) →
      CurOK tok N sents0 current curTok →
      ∀ c ∈ chunkLoop tok N 0 sentences chunks current curTok,
        ChunkWithinBudget tok N sents0 c := by
  intro sentences
  induction sentences with
  | nil =>
    intro chunks current curTok _ hchunks hcur c hc
    simp only [chunkLoop] at hc
    by_cases hcure : current = []
    · simp [hcure] at hc
      exact hchunks c hc
    · simp [hcure] at hc
      rcases hc with hc | hc
      · exact hchunks c hc
      · subst hc
        rcases hcur with ⟨h1, _⟩ | ⟨g, hg1, hg2, hg3, hg4, hg5⟩
        · exact absurd h1 hcure
        · exact ⟨g, hg1, hg2, by rw [hg3], by rw [hg4] at hg5; exact hg5⟩
  | cons s rest ih =>
    intro chunks current curTok hsents hchunks hcur c hc
    simp only [chunkLoop] at hc
    by_cases hfits : curTok + tok (procSent s) ≤ N
    · simp only [hfits, if_pos] at hc
      refine ih chunks (current ++ procSent s) (curTok + tok (procSent s))
        (fun x hx => hsents x (List.mem_cons_of_mem _ hx)) hchunks ?_ c hc
      rcases hcur with ⟨h1, h2⟩ | ⟨g, hg1, hg2, hg3, hg4, hg5⟩
      · right
        refine ⟨[procSent s], by simp, ?_, by simp [h1], by simp [h2], ?_⟩
        · intro x hx; simp at hx; subst hx; exact hsents s (List.mem_cons_self s rest)
        · exact Or.inl hfits
      · right
        refine ⟨g ++ [procSent s], by simp, ?_, ?_, ?_, ?_⟩
        · intro x hx
          rcases List.mem_append.mp hx with h | h
          · exact hg2 x h
          · simp at h; subst h; exact hsents s (List.mem_cons_self s rest)
        · simp [hg3]
        · simp [hg4]
        · exact Or.inl hfits
    · simp only [hfits, if_neg, if_false] at hc
      have hov : ¬ (0 < 0 ∧ (if current = [] then chunks else chunks ++ [pyStrip current]) ≠ []) := by
        intro h; exact absurd h.1 (lt_irrefl 0)
      simp only [hov, if_neg, if_false] at hc
      set closed := if current = [] then chunks else chunks ++ [pyStrip current] with hclosed
      have hclosedOK : ∀ c ∈ closed, ChunkWithinBudget tok N sents0 c := by
        intro c1 hc1
        rw [hclosed] at hc1
        by_cases hcure : current = []
        · simp [hcure] at hc1; exact hchunks c1 hc1
        · simp [hcure] at hc1
          rcases hc1 with h | h
          · exact hchunks c1 h
          · subst h
            rcases hcur with ⟨h1, _⟩ | ⟨g, hg1, hg2, hg3, hg4, hg5⟩
            · exact absurd h1 hcure
            · exact ⟨g, hg1, hg2, by rw [hg3], by rw [hg4] at hg5; exact hg5⟩
      refine ih closed (procSent s) (tok (procSent s))
        (fun x hx => hsents x (List.mem_cons_of_mem _ hx)) hclosedOK ?_ c hc
      right
      refine ⟨[procSent s], by simp, ?_, by simp, by simp, ?_⟩
      · intro x hx; simp at hx; subst hx; exact hsents s (List.mem_cons_self s rest)
      · rcases le_or_lt (tok (procSent s)) N with h | h
        · left; simpa using h
        · right; exact ⟨procSent s, rfl, h⟩

/-- Single digits render to distinct characters. -/
theorem digitCh_inj_lt : ∀ a, a < 10 → ∀ b, b < 10 → digitCh a = digitCh b → a = b := by decide

/-- Rendering digit lists is injective on lists of digits below 10. -/
theorem map_digitCh_inj : ∀ (l1 l2 : List Nat), (∀ x ∈ l1, x < 10) → (∀ x ∈ l2, x < 10) →
    l1.map digitCh = l2.map digitCh → l1 = l2 := by
  intro l1
  induction l1 with
  | nil =>
    intro l2 _ _ h
    cases l2 with
    | nil => rfl
    | cons b t => simp at h
  | cons a t ih =>
    intro l2 h1 h2 h
    cases l2 with
    | nil => simp at h
    | cons b t2 =>
      simp only [List.map_cons, List.cons.injEq] at h
      have ha : a = b := digitCh_inj_lt a (h1 a (by simp)) b (h2 b (by simp)) h.1
      have ht : t = t2 := ih t2 (fun x hx => h1 x (by simp [hx])) (fun x hx => h2 x (by simp [hx])) h.2
      rw [ha, ht]

/-- Decimal rendering is injective on positive numbers. -/
theorem natStr_key : ∀ m n : Nat, m ≠ 0 → n ≠ 0 → natStr m = natStr n → m = n := by
  intro m n hm hn h
  rw [natStr, if_neg hm, natStr, if_neg hn] at h
  have hrev : (Nat.digits 10 m).reverse = (Nat.digits 10 n).reverse :=
    map_digitCh_inj _ _
      (fun x hx => Nat.digits_lt_base (by norm_num) (List.mem_reverse.mp hx))
      (fun x hx => Nat.digits_lt_base (by norm_num) (List.mem_reverse.mp hx)) h
  have hdig : Nat.digits 10 m = Nat.digits 10 n := List.reverse_injective hrev
  calc m = Nat.ofDigits 10 (Nat.digits 10 m) := (Nat.ofDigits_digits 10 m).symm
  _ = Nat.ofDigits 10 (Nat.digits 10 n) := by rw [hdig]
  _ = n := Nat.ofDigits_digits 10 n

/-- Zero's rendering is distinct from every positive rendering. -/
theorem natStr_zero_ne : ∀ n : Nat, n ≠ 0 → natStr 0 ≠ natStr n := by
  intro n hn h
  rw [natStr, if_pos rfl, natStr, if_neg hn] at h
  have hlen := congrArg List.length h
  simp at hlen
  rcases List.length_eq_one.mp hlen.symm with ⟨d, hd⟩
  have hd10 : d < 10 := Nat.digits_lt_base (by norm_num) (by rw [hd]; exact List.mem_singleton_self d)
  rw [hd] at h
  simp at h
  have hd0 : d = 0 := digitCh_inj_lt d hd10 0 (by norm_num) (by rw [← h]; rfl)
  have hofd := Nat.ofDigits_digits 10 n
  rw [hd, hd0] at hofd
  simp [Nat.ofDigits] at hofd
  exact hn hofd.symm

/-- Decimal rendering of naturals is injective. -/
theorem natStr_injective : Function.Injective natStr := by
  intro m n h
  by_cases hm : m = 0 <;> by_cases hn : n = 0
  · rw [hm, hn]
  · exact absurd (hm ▸ h) (natStr_zero_ne n hn)
  · exact absurd (hn ▸ h).symm (natStr_zero_ne m hm)
  · exact natStr_key m n hm hn h

/-- Point ids are injective in the chunk index. -/
theorem pointId_inj (md5hex : Str → Str) (docId : Nat) (title : Str) :
    Function.Injective (pointId md5hex docId title) := by
  intro i j h
  unfold pointId at h
  simp only [List.append_assoc] at h
  have h2 := List.append_cancel_left h
  have h3 := List.append_cancel_left h2
  have h4 := List.append_cancel_left h3
  have h5 := List.append_cancel_left h4
  have h6 := List.append_cancel_left h5
  exact natStr_injective h6

/-- A document's chunk id list has no duplicates. -/
theorem mkChunkIds_nodup (md5hex : Str → Str) (docId : Nat) (title : Str) (n : Nat) :
    (mkChunkIds md5hex docId title n).Nodup :=
  List.Nodup.map (pointId_inj md5hex docId title) (List.nodup_range n)

/-- One chunk id per chunk. -/
theorem mkChunkIds_length (md5hex : Str → Str) (docId : Nat) (title : Str) (n : Nat) :
    (mkChunkIds md5hex docId title n).length = n := by
  simp [mkChunkIds]

/-- The i-th chunk id is the point id derived from the document identity
and chunk index i. -/
theorem mkChunkIds_get (md5hex : Str → Str) (docId : Nat) (title : Str) (n i : Nat)
    (h : i < n) :
    (mkChunkIds md5hex docId title n).get? i = some (pointId md5hex docId title i) := by
  simp [mkChunkIds]
  exact ⟨i, by simp [List.getElem?_range h], rfl⟩

/-- A successful ingestion's id list is exactly the derived id list of its
chunk list. -/
theorem processDocumentBody_ok (deps : IngestDeps) (docId : Nat) (title : Str)
    (extracted : Except String Str) (ci : List Str × List Str)
    (h : processDocumentBody deps docId title extracted = Except.ok ci) :
    ci.2 = mkChunkIds deps.md5hex docId title ci.1.length := by
  unfold processDocumentBody at h
  cases extracted with
  | error e => simp at h
  | ok t =>
    by_cases ht : pyStrip t = []
    · simp [ht] at h
    · simp only [ht, if_neg, if_false] at h
      cases hemb : deps.embedBatch (chunkText deps.tok deps.cfg.chunkSize deps.cfg.chunkOverlap none none t) with
      | error e => rw [hemb] at h; simp at h
      | ok embs =>
        rw [hemb] at h
        dsimp only at h
        cases hins : deps.insertDocuments (mkChunkIds deps.md5hex docId title (chunkText deps.tok deps.cfg.chunkSize deps.cfg.chunkOverlap none none t).length) embs with
        | error e => rw [hins] at h; simp at h
        | ok u =>
          rw [hins] at h
          simp at h
          cases h
          simp [mkChunkIds_length]

/-- The sequential OCR fold is the concatenation of the per-page
contributions. -/
theorem processOcrSequential_eq_flatten (pages : List PageOcr) :
    processOcrSequential pages = (pages.map okPart).flatten := by
  have gen : ∀ (l : List PageOcr) (acc : Str),
      l.foldl (fun text p =>
        match p with
        | Except.ok pageText => text ++ pageText ++ strOf "\n\n"
        | Except.error _ => text) acc = acc ++ (l.map okPart).flatten := by
    intro l
    induction l with
    | nil => intro acc; simp
    | cons p rest ih =>
      intro acc
      rw [List.foldl_cons]
      cases p with
      | ok t =>
        rw [ih]
        simp [okPart, List.append_assoc]
      | error e =>
        rw [ih]
        simp [okPart]
  have := gen pages []
  simp only [List.nil_append] at this
  exact this

/-- A failing page contributes nothing: sequential OCR of the page list
equals sequential OCR with that page removed. -/
theorem seq_erase_of_error (pages : List PageOcr) (k : Nat) (e : String)
    (hk : k < pages.length) (herr : pages.get ⟨k, hk⟩ = Except.error e) :
    processOcrSequential pages = processOcrSequential (pages.eraseIdx k) := by
  rw [processOcrSequential_eq_flatten, processOcrSequential_eq_flatten]
  induction pages generalizing k with
  | nil => simp at hk
  | cons p rest ih =>
    cases k with
    | zero =>
      simp at herr
      subst herr
      simp [okPart]
    | succ k2 =>
      simp at hk
      have := ih k2 (by simpa using hk) (by simpa using herr)
      simp [List.eraseIdx]
      rw [this]

/-- Every member of a joined list is an infix of the join. -/
theorem mem_infix_joinSep (sep : Str) (x : Str) : ∀ (xs : List Str), x ∈ xs →
    x <:+: joinSep sep xs := by
  intro xs
  induction xs with
  | nil => intro h; simp at h
  | cons y rest ih =>
    intro h
    rcases List.mem_cons.mp h with h | h
    · subst h
      cases rest with
      | nil => simp [joinSep]
      | cons z t =>
        rw [joinSep]
        exact ⟨[], sep ++ joinSep sep (z :: t), by simp⟩
    · cases rest with
      | nil => simp at h
      | cons z t =>
        rw [joinSep]
        have hinf := ih h
        have : joinSep sep (z :: t) <:+: y ++ sep ++ joinSep sep (z :: t) :=
          ⟨y ++ sep, [], by simp⟩
        exact List.IsInfix.trans hinf this

/-- Every successfully OCRed page's text appears in the sequential output. -/
theorem ok_infix_seq (pages : List PageOcr) (i : Nat) (hi : i < pages.length) (t : Str)
    (h : pages.get ⟨i, hi⟩ = Except.ok t) :
    t <:+: processOcrSequential pages := by
  rw [processOcrSequential_eq_flatten]
  have hmem : okPart (pages.get ⟨i, hi⟩) ∈ pages.map okPart :=
    List.mem_map_of_mem okPart (pages.get_mem i hi)
  rw [h] at hmem
  have hinf : (t ++ strOf "\n\n") <:+: (pages.map okPart).flatten :=
    List.infix_of_mem_flatten hmem
  exact List.IsInfix.trans ⟨[], strOf "\n\n", by simp⟩ hinf

/-- Every successfully OCRed page's text appears in the batch-parallel
output. -/
theorem ok_infix_parallel (pages : List PageOcr) (i : Nat) (hi : i < pages.length) (t : Str)
    (h : pages.get ⟨i, hi⟩ = Except.ok t) :
    t <:+: processOcrBatchParallel pages := by
  rw [processOcrBatchParallel]
  have hmem : ocrSinglePage (pages.get ⟨i, hi⟩) ∈ pages.map ocrSinglePage :=
    List.mem_map_of_mem ocrSinglePage (pages.get_mem i hi)
  rw [h] at hmem
  exact mem_infix_joinSep _ _ _ hmem

/-- The double falsy-defaulting of the score threshold (retriever then
vector store) collapses to a single application. -/
theorem pyOrQ_idem (x : Option ℚ) (d : ℚ) : pyOrQ (some (pyOrQ x d)) d = pyOrQ x d := by
  show (if pyOrQ x d = 0 then d else pyOrQ x d) = pyOrQ x d
  by_cases h : pyOrQ x d = 0
  · rw [if_pos h, h]
    cases x with
    | none =>
      simp [pyOrQ] at h
      exact h
    | some q =>
      by_cases hq : q = 0
      · simp [pyOrQ, hq] at h
        exact h
      · exact absurd (by simpa [pyOrQ, hq] using h) hq
  · rw [if_neg h]

/-- The requested minimum score never exceeds the effective threshold as
long as the configured default is non-negative. -/
theorem getD_le_pyOrQ (x : Option ℚ) (d : ℚ) (hd : 0 ≤ d) : x.getD d ≤ pyOrQ x d := by
  cases x with
  | none => simp [pyOrQ]
  | some q =>
    by_cases hq : q = 0
    · simp [pyOrQ, hq, hd]
    · simp [pyOrQ, hq]

/-- A successful synchronous retrieval is the descending re-sort of the
formatted hits of one backend search at the effective limit/threshold. -/
theorem retrieveBody_ok_shape (env : RetrieverEnv) (cfg : RagCfg) (query : Str)
    (topK : Option Nat) (minScore : Option ℚ) (filters : Option Filters)
    (res : List RetrievedDoc)
    (h : retrieveBody env cfg query topK minScore filters = Except.ok res) :
    ∃ qv hits,
      env.backend.search qv (pyOrNat (some (pyOrNat topK cfg.topK)) cfg.topK)
          (pyOrQ (some (pyOrQ minScore cfg.minScore)) cfg.minScore)
          (buildQueryFilter filters) = Except.ok hits ∧
      res = List.insertionSort scoreGe
        (hits.map (fun hit => ⟨hit.id, hit.score, hit.payload⟩)) := by
  unfold retrieveBody vectorStoreSearch at h
  cases h1 : env.embed query with
  | error e => rw [h1] at h; simp at h
  | ok qv =>
    rw [h1] at h
    dsimp only at h
    cases h2 : env.backend.search qv (pyOrNat (some (pyOrNat topK cfg.topK)) cfg.topK)
        (pyOrQ (some (pyOrQ minScore cfg.minScore)) cfg.minScore)
        (buildQueryFilter filters) with
    | error e => rw [h2] at h; simp at h
    | ok hits =>
      rw [h2] at h
      simp at h
      exact ⟨qv, hits, h2, h.symm⟩

/-- Scores returned by the sync retriever respect the requested minimum,
assuming the index service honours its score-threshold contract. -/
theorem retrieve_min_score (env : RetrieverEnv) (cfg : RagCfg) (query : Str)
    (topK : Option Nat) (minScore : Option ℚ) (filters : Option Filters)
    (hcontract : ∀ v l t f hits, env.backend.search v l t f = Except.ok hits →
      ∀ hit ∈ hits, t ≤ hit.score)
    (hcfg : 0 ≤ cfg.minScore) :
    ∀ d ∈ retrieve env cfg query topK minScore filters,
      minScore.getD cfg.minScore ≤ d.score := by
  intro d hd
  unfold retrieve at hd
  cases h : retrieveBody env cfg query topK minScore filters with
  | error e => rw [h] at hd; simp at hd
  | ok res =>
    rw [h] at hd
    rcases retrieveBody_ok_shape env cfg query topK minScore filters res h with
      ⟨qv, hits, hsearch, hres⟩
    rw [hres] at hd
    have hmem := (List.perm_insertionSort scoreGe _).mem_iff.mp hd
    rcases List.mem_map.mp hmem with ⟨hit, hhit, hdq⟩
    have hscore := hcontract _ _ _ _ _ hsearch hit hhit
    rw [pyOrQ_idem] at hscore
    have h1 := getD_le_pyOrQ minScore cfg.minScore hcfg
    rw [← hdq]
    exact le_trans h1 hscore

/-- The sync retriever's output is sorted by descending score. -/
theorem retrieve_sorted (env : RetrieverEnv) (cfg : RagCfg) (query : Str)
    (topK : Option Nat) (minScore : Option ℚ) (filters : Option Filters) :
    List.Sorted scoreGe (retrieve env cfg query topK minScore filters) := by
  unfold retrieve
  cases h : retrieveBody env cfg query topK minScore filters with
  | error e => simp
  | ok res =>
    rcases retrieveBody_ok_shape env cfg query topK minScore filters res h with
      ⟨qv, hits, hsearch, hres⟩
    rw [hres]
    exact List.sorted_insertionSort scoreGe _

/-- Async analogue of `retrieveBody_ok_shape`. -/
theorem retrieveAsyncBody_ok_shape (env : RetrieverEnv) (cfg : RagCfg) (query : Str)
    (topK : Option Nat) (minScore : Option ℚ) (filters : Option Filters)
    (res : List RetrievedDoc)
    (h : retrieveAsyncBody env cfg query topK minScore filters = Except.ok res) :
    ∃ qv hits,
      env.backend.search qv (pyOrNat (some (pyOrNat topK cfg.topK)) cfg.topK)
          (pyOrQ (some (pyOrQ minScore cfg.minScore)) cfg.minScore)
          (buildQueryFilter filters) = Except.ok hits ∧
      res = List.insertionSort scoreGe
        (hits.map (fun hit => ⟨hit.id, hit.score, hit.payload⟩)) := by
  unfold retrieveAsyncBody vectorStoreSearch at h
  cases h1 : env.embedAsync query with
  | error e => rw [h1] at h; simp at h
  | ok qv =>
    rw [h1] at h
    dsimp only at h
    cases h2 : env.backend.search qv (pyOrNat (some (pyOrNat topK cfg.topK)) cfg.topK)
        (pyOrQ (some (pyOrQ minScore cfg.minScore)) cfg.minScore)
        (buildQueryFilter filters) with
    | error e => rw [h2] at h; simp at h
    | ok hits =>
      rw [h2] at h
      simp at h
      exact ⟨qv, hits, h2, h.symm⟩

/-- Async analogue of `retrieve_min_score`. -/
theorem retrieveAsync_min_score (env : RetrieverEnv) (cfg : RagCfg) (query : Str)
    (topK : Option Nat) (minScore : Option ℚ) (filters : Option Filters)
    (hcontract : ∀ v l t f hits, env.backend.search v l t f = Except.ok hits →
      ∀ hit ∈ hits, t ≤ hit.score)
    (hcfg : 0 ≤ cfg.minScore) :
    ∀ d ∈ retrieveAsync env cfg query topK minScore filters,
      minScore.getD cfg.minScore ≤ d.score := by
  intro d hd
  unfold retrieveAsync at hd
  cases h : retrieveAsyncBody env cfg query topK minScore filters with
  | error e => rw [h] at hd; simp at hd
  | ok res =>
    rw [h] at hd
    rcases retrieveAsyncBody_ok_shape env cfg query topK minScore filters res h with
      ⟨qv, hits, hsearch, hres⟩
    rw [hres] at hd
    have hmem := (List.perm_insertionSort scoreGe _).mem_iff.mp hd
    rcases List.mem_map.mp hmem with ⟨hit, hhit, hdq⟩
    have hscore := hcontract _ _ _ _ _ hsearch hit hhit
    rw [pyOrQ_idem] at hscore
    have h1 := getD_le_pyOrQ minScore cfg.minScore hcfg
    rw [← hdq]
    exact le_trans h1 hscore

/-- Async analogue of `retrieve_sorted`. -/
theorem retrieveAsync_sorted (env : RetrieverEnv) (cfg : RagCfg) (query : Str)
    (topK : Option Nat) (minScore : Option ℚ) (filters : Option Filters) :
    List.Sorted scoreGe (retrieveAsync env cfg query topK minScore filters) := by
  unfold retrieveAsync
  cases h : retrieveAsyncBody env cfg query topK minScore filters with
  | error e => simp
  | ok res =>
    rcases retrieveAsyncBody_ok_shape env cfg query topK minScore filters res h with
      ⟨qv, hits, hsearch, hres⟩
    rw [hres]
    exact List.sorted_insertionSort scoreGe _

/-- The demo backend honours the Qdrant score-threshold contract. -/
theorem demoFilterBackend_contract :
    ∀ v l t f hits, demoRetEnv.backend.search v l t f = Except.ok hits →
      ∀ hit ∈ hits, t ≤ hit.score := by
  intro v l t f hits hh hit hmem
  have heq : hits = demoHits.filter (fun h => decide (t ≤ h.score)) := by
    have h2 := hh
    simp [demoRetEnv, demoFilterBackend] at h2
    exact h2.symm
  rw [heq] at hmem
  have hdec := List.of_mem_filter hmem
  exact of_decide_eq_true hdec

/-- Distinct OpenAI and Gemini cache keys for the same text (the key
namespaces differ in length). -/
theorem openai_gemini_keys_disjoint (svcO : OpenAIEmbeddings) (svcG : GeminiEmbeddings)
    (md5hex : Str → Str) (text : Str) :
    openaiCacheKey svcO md5hex text ≠ geminiCacheKey svcG md5hex text := by
  intro h
  have hlen := congrArg List.length h
  simp [openaiCacheKey, geminiCacheKey, strOf] at hlen

/-- A vector cached under one OpenAI model configuration is returned, with
no provider call, by an embed under a different model configuration. -/
theorem openai_cross_model_read (mA mB : Str) (provA provB : Str → Vec)
    (md5hex : Str → Str) (x : Str) (hx : provA x ≠ []) :
    openaiGenerateEmbedding ⟨mB, true, provB⟩ md5hex
        (openaiGenerateEmbedding ⟨mA, true, provA⟩ md5hex emptyCache x).2.1 x
      = (provA x, (openaiGenerateEmbedding ⟨mA, true, provA⟩ md5hex emptyCache x).2.1, 0) := by
  have hmiss : openaiGetFromCache ⟨mA, true, provA⟩ md5hex emptyCache x = none := by
    simp [openaiGetFromCache, cacheLookup, emptyCache]
  have hfirst : openaiGenerateEmbedding ⟨mA, true, provA⟩ md5hex emptyCache x =
      (provA x, cacheStore emptyCache (openaiCacheKey ⟨mA, true, provA⟩ md5hex x) (provA x), 1) := by
    simp [openaiGenerateEmbedding, hmiss, openaiSaveToCache]
  rw [hfirst]
  have hkey : openaiCacheKey ⟨mB, true, provB⟩ md5hex x
      = openaiCacheKey ⟨mA, true, provA⟩ md5hex x := rfl
  have hhit : openaiGetFromCache ⟨mB, true, provB⟩ md5hex
      (cacheStore emptyCache (openaiCacheKey ⟨mA, true, provA⟩ md5hex x) (provA x)) x
      = some (provA x) := by
    simp [openaiGetFromCache, cacheLookup, cacheStore, hkey]
  simp [openaiGenerateEmbedding, hhit, hx]

/-- Single-text OpenAI embed returns a non-empty cached vector with no
provider call. -/
theorem openai_embed_hit (svc : OpenAIEmbeddings) (md5hex : Str → Str) (c : EmbCache)
    (x : Str) (v : Vec) (h : openaiGetFromCache svc md5hex c x = some v) (hv : v ≠ []) :
    openaiGenerateEmbedding svc md5hex c x = (v, c, 0) := by
  simp [openaiGenerateEmbedding, h, hv]

/-- Single-text OpenAI embed on a cache miss makes one provider call and
populates the cache before returning. -/
theorem openai_embed_miss (svc : OpenAIEmbeddings) (md5hex : Str → Str) (c : EmbCache)
    (x : Str) (h : openaiGetFromCache svc md5hex c x = none) :
    openaiGenerateEmbedding svc md5hex c x
      = (svc.provider x, openaiSaveToCache svc md5hex c x (svc.provider x), 1) := by
  simp [openaiGenerateEmbedding, h]

/-- With the cache enabled, a saved vector is found again. -/
theorem openai_save_lookup (svc : OpenAIEmbeddings) (md5hex : Str → Str) (c : EmbCache)
    (x : Str) (v : Vec) (henabled : svc.cacheEnabled = true) :
    openaiGetFromCache svc md5hex (openaiSaveToCache svc md5hex c x v) x = some v := by
  simp [openaiGetFromCache, openaiSaveToCache, cacheLookup, cacheStore, henabled]

/-- Calling the single-text OpenAI embed twice issues at most one provider
call in total (available cache, non-degenerate provider vector). -/
theorem openai_two_calls (svc : OpenAIEmbeddings) (md5hex : Str → Str) (c : EmbCache)
    (x : Str) (henabled : svc.cacheEnabled = true) (hprov : svc.provider x ≠ []) :
    (openaiGenerateEmbedding svc md5hex c x).2.2
      + (openaiGenerateEmbedding svc md5hex (openaiGenerateEmbedding svc md5hex c x).2.1 x).2.2
      ≤ 1 := by
  cases h : openaiGetFromCache svc md5hex c x with
  | none =>
    rw [openai_embed_miss svc md5hex c x h]
    have h2 := openai_save_lookup svc md5hex c x (svc.provider x) henabled
    simp [openai_embed_hit svc md5hex _ x (svc.provider x) h2 hprov]
  | some v =>
    by_cases hv : v = []
    · subst hv
      have h1 : openaiGenerateEmbedding svc md5hex c x
          = (svc.provider x, openaiSaveToCache svc md5hex c x (svc.provider x), 1) := by
        simp [openaiGenerateEmbedding, h]
      rw [h1]
      have h2 := openai_save_lookup svc md5hex c x (svc.provider x) henabled
      simp [openai_embed_hit svc md5hex _ x (svc.provider x) h2 hprov]
    · rw [openai_embed_hit svc md5hex c x v h hv]
      simp [openai_embed_hit svc md5hex c x v h hv]

/-- Gemini single-text embed returns a non-empty cached vector with no
provider call. -/
theorem gemini_embed_hit (svc : GeminiEmbeddings) (md5hex : Str → Str) (c : EmbCache)
    (x : Str) (v : Vec) (h : geminiGetFromCache svc md5hex c x = some v) (hv : v ≠ []) :
    geminiGenerateEmbedding svc md5hex c x = (v, c, 0) := by
  simp [geminiGenerateEmbedding, h, hv]

/-- With the cache enabled, a saved Gemini vector is found again. -/
theorem gemini_save_lookup (svc : GeminiEmbeddings) (md5hex : Str → Str) (c : EmbCache)
    (x : Str) (v : Vec) (henabled : svc.cacheEnabled = true) :
    geminiGetFromCache svc md5hex (geminiSaveToCache svc md5hex c x v) x = some v := by
  simp [geminiGetFromCache, geminiSaveToCache, cacheLookup, cacheStore, henabled]

/-- Calling the Gemini single-text embed twice issues at most one provider
call in total. -/
theorem gemini_two_calls (svc : GeminiEmbeddings) (md5hex : Str → Str) (c : EmbCache)
    (x : Str) (henabled : svc.cacheEnabled = true) (hprov : svc.provider x ≠ []) :
    (geminiGenerateEmbedding svc md5hex c x).2.2
      + (geminiGenerateEmbedding svc md5hex (geminiGenerateEmbedding svc md5hex c x).2.1 x).2.2
      ≤ 1 := by
  cases h : geminiGetFromCache svc md5hex c x with
  | none =>
    have h1 : geminiGenerateEmbedding svc md5hex c x
        = (svc.provider x, geminiSaveToCache svc md5hex c x (svc.provider x), 1) := by
      simp [geminiGenerateEmbedding, h]
    rw [h1]
    have h2 := gemini_save_lookup svc md5hex c x (svc.provider x) henabled
    simp [gemini_embed_hit svc md5hex _ x (svc.provider x) h2 hprov]
  | some v =>
    by_cases hv : v = []
    · subst hv
      have h1 : geminiGenerateEmbedding svc md5hex c x
          = (svc.provider x, geminiSaveToCache svc md5hex c x (svc.provider x), 1) := by
        simp [geminiGenerateEmbedding, h]
      rw [h1]
      have h2 := gemini_save_lookup svc md5hex c x (svc.provider x) henabled
      simp [gemini_embed_hit svc md5hex _ x (svc.provider x) h2 hprov]
    · rw [gemini_embed_hit svc md5hex c x v h hv]
      simp [gemini_embed_hit svc md5hex c x v h hv]

/-- The Gemini batch issues no provider call when every input is cached. -/
theorem gemini_batch_all_cached (svc : GeminiEmbeddings) (md5hex : Str → Str) (c : EmbCache)
    (texts : List Str)
    (h : ∀ t ∈ texts, geminiCacheProbe svc md5hex c t ≠ none) :
    (geminiGenerateEmbeddingsBatch svc md5hex c texts).2.2 = 0 := by
  by_cases ht : texts = []
  · simp [geminiGenerateEmbeddingsBatch, ht]
  · have hfilter : texts.filter (fun t => geminiCacheProbe svc md5hex c t = none) = [] := by
      rw [List.filter_eq_nil_iff]
      intro a ha
      simp [h a ha]
    simp [geminiGenerateEmbeddingsBatch, ht, hfilter]

/-- Batch sizes of adaptive batching stay within 2..8 above five pages. -/
theorem getBatchSize_bounds : ∀ n : Nat, 5 < n →
    2 ≤ getBatchSize true n ∧ getBatchSize true n ≤ 8 := by
  intro n h
  unfold getBatchSize
  rw [if_neg (by simp : ¬ (true = false))]
  split
  · omega
  · split
    · omega
    · split
      · omega
      · omega

/-! ## Claim theorems -/

/-- Claim C1: for every query, conversation history, user id (not used by
the result) and filters, `RAGChain.generate_response` and
`generate_response_async` never propagate an exception: each returns
either its try-block's result, or — when any step raises — the
well-formed fallback whose text is the fixed apologetic message, with
`tokens = 0`, `docs_retrieved = 0`, empty `sources` and `scores`, and the
error message attached under the `error` key. -/
theorem rag_chain_always_returns_wellformed_result :
    ∀ (env : ChainEnv) (query : Str) (history : Option (List ChatMsg))
      (filters : Option Filters),
      ((∃ r, chainBody env query history filters = Except.ok r ∧
          generateResponse env query history filters = r) ∨
        (∃ e, chainBody env query history filters = Except.error e ∧
          generateResponse env query history filters =
            { text := TextOut.single apologeticText, sources := [], scores := [],
              tokens := 0, docsRetrieved := 0, error := some e })) ∧
      ((∃ r, chainBodyAsync env query history filters = Except.ok r ∧
          generateResponseAsync env query history filters = r) ∨
        (∃ e, chainBodyAsync env query history filters = Except.error e ∧
          generateResponseAsync env query history filters =
            { text := TextOut.single apologeticText, sources := [], scores := [],
              tokens := 0, docsRetrieved := 0, error := some e })) := by
  intro env query history filters
  constructor
  · cases h : chainBody env query history filters with
    | ok r => exact Or.inl ⟨r, rfl, by simp [generateResponse, h]⟩
    | error e => exact Or.inr ⟨e, rfl, by simp [generateResponse, h, fallbackRagResult]⟩
  · cases h : chainBodyAsync env query history filters with
    | ok r => exact Or.inl ⟨r, rfl, by simp [generateResponseAsync, h]⟩
    | error e => exact Or.inr ⟨e, rfl, by simp [generateResponseAsync, h, fallbackRagResult]⟩

/-- Claim C2 counterexample: two different OpenAI embedding-model
configurations map the same text to the same cache key — the model
identity is not part of the key, refuting the claim that two different
provider/model configurations never collide. -/
theorem cache_key_ignores_model_counterexample :
    openaiCacheKey demoOpenAISmall demoMd5 (strOf "hello")
      = openaiCacheKey demoOpenAILarge demoMd5 (strOf "hello") ∧
    demoOpenAISmall.model ≠ demoOpenAILarge.model := by decide

/-- Claim C2 (amended): the cache key is a deterministic function of the
provider namespace and the text hash only — the embedding model is not
part of the key.  Hence (1, 2) two configurations of the same provider
with different models always produce identical keys, (3) the two
providers never collide on the same text (distinct `emb:` and
`emb:gemini:` namespaces), and (4) an embed under one OpenAI model
configuration returns the vector cached by a different model
configuration, with no provider call. -/
theorem cache_key_provider_only_amended :
    (∀ (m1 m2 : Str) (e1 e2 : Bool) (p1 p2 : Str → Vec) (md5hex : Str → Str) (text : Str),
      openaiCacheKey ⟨m1, e1, p1⟩ md5hex text = openaiCacheKey ⟨m2, e2, p2⟩ md5hex text) ∧
    (∀ (m1 m2 : Str) (e1 e2 : Bool) (p1 p2 : Str → Vec) (md5hex : Str → Str) (text : Str),
      geminiCacheKey ⟨m1, e1, p1⟩ md5hex text = geminiCacheKey ⟨m2, e2, p2⟩ md5hex text) ∧
    (∀ (svcO : OpenAIEmbeddings) (svcG : GeminiEmbeddings) (md5hex : Str → Str) (text : Str),
      openaiCacheKey svcO md5hex text ≠ geminiCacheKey svcG md5hex text) ∧
    (∀ (mA mB : Str) (provA provB : Str → Vec) (md5hex : Str → Str) (x : Str),
      provA x ≠ [] →
      openaiGenerateEmbedding ⟨mB, true, provB⟩ md5hex
          (openaiGenerateEmbedding ⟨mA, true, provA⟩ md5hex emptyCache x).2.1 x
        = (provA x, (openaiGenerateEmbedding ⟨mA, true, provA⟩ md5hex emptyCache x).2.1, 0)) :=
  ⟨fun _ _ _ _ _ _ _ _ => rfl, fun _ _ _ _ _ _ _ _ => rfl,
   openai_gemini_keys_disjoint, openai_cross_model_read⟩

/-- Claim C2 witness: the cross-model stale read happens at a concrete
input — embedding `"x"` under the large-model configuration returns the
vector the small-model configuration cached, with zero provider calls. -/
theorem cache_key_provider_only_witness :
    openaiGenerateEmbedding demoOpenAILarge demoMd5
        (openaiGenerateEmbedding demoOpenAISmall demoMd5 emptyCache (strOf "x")).2.1 (strOf "x")
      = (demoProvider1 (strOf "x"),
         (openaiGenerateEmbedding demoOpenAISmall demoMd5 emptyCache (strOf "x")).2.1, 0) :=
  cache_key_provider_only_amended.2.2.2 (strOf "text-embedding-3-small")
    (strOf "text-embedding-3-large") demoProvider1 (fun _ => [2]) demoMd5 (strOf "x")
    (by decide)

/-- Claim C3 counterexample: `EmbeddingsService.generate_embeddings_batch`
does not consult the cache — with `"x"` already cached (the lookup
returns the cached `[2]`), the batch call still issues one provider call
and returns the provider's vector `[1]`, refuting "every embedding call
first consults the embedding cache". -/
theorem openai_batch_skips_cache_counterexample :
    openaiGetFromCache demoOpenAISmall demoMd5 demoCacheX (strOf "x") = some [2] ∧
    openaiGenerateEmbeddingsBatch demoOpenAISmall demoMd5 demoCacheX [strOf "x"]
      = ([[1]], ⟨[(strOf "emb:x", [1]), (strOf "emb:x", [2])]⟩, 1) := by decide

/-- Claim C3 (amended): the single-text embeds (sync and async share one
body, both providers) and the Gemini batch consult the cache first and
populate it on miss before returning — (1) a non-empty cached vector is
returned with no provider call, (2) a miss issues one call and populates
the cache, (3, 4) embedding the same text twice issues at most one
provider call in total, and (5) a Gemini batch whose inputs are all
cached issues no provider call.  The OpenAI batch variant, however,
never reads the cache (see the counterexample): it always issues a
provider call for the full input list and only writes the results. -/
theorem embedding_cache_consultation_amended :
    (∀ (svc : OpenAIEmbeddings) (md5hex : Str → Str) (c : EmbCache) (x : Str) (v : Vec),
      openaiGetFromCache svc md5hex c x = some v → v ≠ [] →
      openaiGenerateEmbedding svc md5hex c x = (v, c, 0)) ∧
    (∀ (svc : OpenAIEmbeddings) (md5hex : Str → Str) (c : EmbCache) (x : Str),
      openaiGetFromCache svc md5hex c x = none →
      openaiGenerateEmbedding svc md5hex c x
        = (svc.provider x, openaiSaveToCache svc md5hex c x (svc.provider x), 1)) ∧
    (∀ (svc : OpenAIEmbeddings) (md5hex : Str → Str) (c : EmbCache) (x : Str),
      svc.cacheEnabled = true → svc.provider x ≠ [] →
      (openaiGenerateEmbedding svc md5hex c x).2.2
        + (openaiGenerateEmbedding svc md5hex
            (openaiGenerateEmbedding svc md5hex c x).2.1 x).2.2 ≤ 1) ∧
    (∀ (svc : GeminiEmbeddings) (md5hex : Str → Str) (c : EmbCache) (x : Str),
      svc.cacheEnabled = true → svc.provider x ≠ [] →
      (geminiGenerateEmbedding svc md5hex c x).2.2
        + (geminiGenerateEmbedding svc md5hex
            (geminiGenerateEmbedding svc md5hex c x).2.1 x).2.2 ≤ 1) ∧
    (∀ (svc : GeminiEmbeddings) (md5hex : Str → Str) (c : EmbCache) (texts : List Str),
      (∀ t ∈ texts, geminiCacheProbe svc md5hex c t ≠ none) →
      (geminiGenerateEmbeddingsBatch svc md5hex c texts).2.2 = 0) :=
  ⟨openai_embed_hit, openai_embed_miss, openai_two_calls, gemini_two_calls,
   gemini_batch_all_cached⟩

/-- Claim C3 witness: the amended cache behaviour at concrete inputs — a
cached hit returns with zero calls, embedding twice costs at most one
call, and a fully cached Gemini batch costs zero calls. -/
theorem embedding_cache_consultation_witness :
    openaiGenerateEmbedding demoOpenAISmall demoMd5 demoCacheX (strOf "x")
      = ([2], demoCacheX, 0) ∧
    (openaiGenerateEmbedding demoOpenAISmall demoMd5 emptyCache (strOf "y")).2.2
      + (openaiGenerateEmbedding demoOpenAISmall demoMd5
          (openaiGenerateEmbedding demoOpenAISmall demoMd5 emptyCache (strOf "y")).2.1
          (strOf "y")).2.2 ≤ 1 ∧
    (geminiGenerateEmbeddingsBatch demoGemini demoMd5
        (EmbCache.mk [(strOf "emb:gemini:x", [2])]) [strOf "x"]).2.2 = 0 :=
  ⟨embedding_cache_consultation_amended.1 demoOpenAISmall demoMd5 demoCacheX (strOf "x") [2]
     (by decide) (by decide),
   embedding_cache_consultation_amended.2.2.1 demoOpenAISmall demoMd5 emptyCache (strOf "y")
     (by decide) (by decide),
   embedding_cache_consultation_amended.2.2.2.2 demoGemini demoMd5
     (EmbCache.mk [(strOf "emb:gemini:x", [2])]) [strOf "x"] (by decide)⟩

/-- Claim C4: for every query, top_k, min_score and filters, `retrieve`
(and `retrieve_async`) never returns a result whose score is below the
requested minimum (the effective threshold when the falsy default kicks
in is the configured one, which is at least the requested value under the
stated non-negativity of the configured default), and the returned list
is sorted by descending score.  The score-threshold filtering itself is
performed by the Qdrant service; its documented contract — returned hits
score at least the requested threshold — is the `hcontract` hypothesis. -/
theorem retrieve_min_score_and_descending (env : RetrieverEnv) (cfg : RagCfg) (query : Str)
    (topK : Option Nat) (minScore : Option ℚ) (filters : Option Filters)
    (hcontract : ∀ v l t f hits, env.backend.search v l t f = Except.ok hits →
      ∀ hit ∈ hits, t ≤ hit.score)
    (hcfg : 0 ≤ cfg.minScore) :
    (∀ d ∈ retrieve env cfg query topK minScore filters,
      minScore.getD cfg.minScore ≤ d.score) ∧
    List.Sorted scoreGe (retrieve env cfg query topK minScore filters) ∧
    (∀ d ∈ retrieveAsync env cfg query topK minScore filters,
      minScore.getD cfg.minScore ≤ d.score) ∧
    List.Sorted scoreGe (retrieveAsync env cfg query topK minScore filters) :=
  ⟨retrieve_min_score env cfg query topK minScore filters hcontract hcfg,
   retrieve_sorted env cfg query topK minScore filters,
   retrieveAsync_min_score env cfg query topK minScore filters hcontract hcfg,
   retrieveAsync_sorted env cfg query topK minScore filters⟩

/-- Claim C4 witness: the retrieval guarantee applied to a concrete
environment whose backend honours the threshold contract. -/
theorem retrieve_min_score_and_descending_witness :
    List.Sorted scoreGe (retrieve demoRetEnv defaultRagCfg (strOf "hours") none none none) :=
  (retrieve_min_score_and_descending demoRetEnv defaultRagCfg (strOf "hours") none none none
    demoFilterBackend_contract (by norm_num [defaultRagCfg])).2.1

/-- Claim C5: re-indexing the same document with unchanged content
produces the same point ids both times — the id list a run writes is
exactly the id set the next re-index deletes and a rerun recreates
(the model is a function of the document identity and content, so two
runs coincide), there is exactly one point id per chunk and no
duplicates, and the i-th id is derived deterministically from the
document identity and chunk index i. -/
theorem point_ids_deterministic_one_per_chunk (deps : IngestDeps) (docId : Nat) (title : Str)
    (extracted : Except String Str) :
    reindexDeletes (processDocumentAsyncModel deps docId title extracted)
      = (processDocumentAsyncModel deps docId title extracted).pointIds ∧
    (processDocumentAsyncModel deps docId title extracted).pointIds.length
      = (processDocumentAsyncModel deps docId title extracted).chunksCount ∧
    (processDocumentAsyncModel deps docId title extracted).pointIds.Nodup ∧
    (∀ n i, i < n → (mkChunkIds deps.md5hex docId title n).get? i
      = some (pointId deps.md5hex docId title i)) := by
  refine ⟨rfl, ?_, ?_, fun n i h => mkChunkIds_get deps.md5hex docId title n i h⟩
  · unfold processDocumentAsyncModel
    cases h : processDocumentBody deps docId title extracted with
    | error e => simp
    | ok ci =>
      have hids := processDocumentBody_ok deps docId title extracted ci h
      simp [hids, mkChunkIds_length]
  · unfold processDocumentAsyncModel
    cases h : processDocumentBody deps docId title extracted with
    | error e => simp
    | ok ci =>
      have hids := processDocumentBody_ok deps docId title extracted ci h
      simp only [hids]
      exact mkChunkIds_nodup deps.md5hex docId title ci.1.length

/-- Claim C5 witness: the id derivation at a concrete document and chunk
index. -/
theorem point_ids_deterministic_one_per_chunk_witness :
    (mkChunkIds demoIngestDeps.md5hex 7 (strOf "T") 3).get? 1
      = some (pointId demoIngestDeps.md5hex 7 (strOf "T") 1) :=
  (point_ids_deterministic_one_per_chunk demoIngestDeps 7 (strOf "T")
    (Except.ok (strOf "hello"))).2.2.2 3 1 (by norm_num)

/-- Claim C6 counterexample: chunking the empty string does not yield zero
chunks — `chunk_text("", 512, 50)` returns the single chunk `"."`, the
artifact of appending `". "` to the empty sentence. -/
theorem chunk_empty_string_counterexample :
    chunkText approxTok 512 50 (some 512) (some 50) (strOf "") = [strOf "."] ∧
    chunkText approxTok 512 50 (some 512) (some 50) (strOf "") ≠ [] := by decide

/-- Claim C6 (amended): chunking the empty string yields exactly one chunk
`"."` (for every token counter, chunk size and overlap), not zero chunks;
the zero-chunks guarantee for empty input is enforced upstream —
`process_document_async` fails the document with "Document is empty after
extraction" before chunking, creating zero chunks and zero points. -/
theorem chunk_empty_string_amended :
    (∀ (tok : Str → Nat) (chunkSize overlap : Nat),
      chunkTextCore tok chunkSize overlap (strOf "") = [strOf "."]) ∧
    (∀ (deps : IngestDeps) (docId : Nat) (title : Str),
      processDocumentAsyncModel deps docId title (Except.ok (strOf ""))
        = ⟨strOf "failed", 0, [], some ("Document is empty after extraction".take 1000)⟩) := by
  constructor
  · intro tok N ov
    show chunkLoop tok N ov (splitDot (pyReplaceNl (strOf ""))) [] [] 0 = [strOf "."]
    have h1 : splitDot (pyReplaceNl (strOf "")) = [[]] := rfl
    rw [h1]
    by_cases h : 0 + tok (procSent []) ≤ N
    · simp [chunkLoop, h]
      rfl
    · simp [chunkLoop, h]
      rfl
  · intro deps docId title
    rfl

/-- Claim C7 counterexample: with `chunk_size = 2` and `overlap = 0`, the
text `"abcde. abcde"` produces the single chunk `"abcde. abcde."` whose
token count (fallback counter, `len // 4`) is 3 > 2, although no single
sentence's token count exceeds 2 — token counts are not additive across
concatenation, refuting "every returned chunk has token count ≤ N except
when a single sentence alone exceeds N". -/
theorem chunk_token_budget_counterexample :
    chunkTextCore approxTok 2 0 (strOf "abcde. abcde") = [strOf "abcde. abcde."] ∧
    2 < approxTok (strOf "abcde. abcde.") ∧
    (∀ s ∈ sentencesOf (strOf "abcde. abcde"), approxTok s ≤ 2) := by decide

/-- Claim C7 (amended): at `overlap = 0`, every chunk that `chunk_text`
returns is the trim of a non-empty group of processed sentences such
that either the per-sentence token counts of the group sum to at most
`chunk_size`, or the group is a single sentence whose token count exceeds
`chunk_size` (kept whole).  The chunk's own measured token count can
exceed the bound only because token counting is not additive over
concatenation. -/
theorem chunk_token_budget_amended (tok : Str → Nat) (chunkSize : Nat) (text : Str) :
    ∀ c ∈ chunkTextCore tok chunkSize 0 text,
      ChunkWithinBudget tok chunkSize (sentencesOf text) c := by
  intro c hc
  refine chunkLoop_budget tok chunkSize (sentencesOf text) (splitDot (pyReplaceNl text))
    [] [] 0 ?_ (by simp) (Or.inl ⟨rfl, rfl⟩) c hc
  intro s hs
  exact List.mem_map_of_mem procSent hs

/-- Claim C7 witness: the budget property at a concrete text whose two
sentences pack into one chunk. -/
theorem chunk_token_budget_witness :
    ChunkWithinBudget approxTok 512 (sentencesOf (strOf "Hi there. Bye"))
      (strOf "Hi there. Bye.") :=
  chunk_token_budget_amended approxTok 512 (strOf "Hi there. Bye")
    (strOf "Hi there. Bye.") (by decide)

/-- Claim C8: when page k of an input raises an OCR error, extraction
does not abort — the sequential processor's output equals the output with
that page absent, every successfully OCRed page's text is contained in
the output (for both the sequential and the batch-parallel processor),
and the failed page contributes empty text. -/
theorem ocr_partial_failure_tolerated (pages : List PageOcr) (k : Nat) (e : String)
    (hk : k < pages.length) (herr : pages.get ⟨k, hk⟩ = Except.error e) :
    processOcrSequential pages = processOcrSequential (pages.eraseIdx k) ∧
    (∀ i (hi : i < pages.length) (t : Str), pages.get ⟨i, hi⟩ = Except.ok t →
      t <:+: processOcrSequential pages) ∧
    (∀ i (hi : i < pages.length) (t : Str), pages.get ⟨i, hi⟩ = Except.ok t →
      t <:+: processOcrBatchParallel pages) ∧
    ocrSinglePage (pages.get ⟨k, hk⟩) = [] :=
  ⟨seq_erase_of_error pages k e hk herr,
   fun i hi t h => ok_infix_seq pages i hi t h,
   fun i hi t h => ok_infix_parallel pages i hi t h,
   by rw [herr]; rfl⟩

/-- Claim C8 witness: partial-failure tolerance at a concrete three-page
input whose middle page fails. -/
theorem ocr_partial_failure_witness :
    processOcrSequential demoPages = processOcrSequential (demoPages.eraseIdx 1) ∧
    strOf "alpha" <:+: processOcrSequential demoPages ∧
    strOf "gamma" <:+: processOcrBatchParallel demoPages ∧
    ocrSinglePage (demoPages.get ⟨1, by decide⟩) = [] := by
  refine ⟨?_, ?_, ?_, ?_⟩
  · exact (ocr_partial_failure_tolerated demoPages 1 "tesseract timeout" (by decide) (by rfl)).1
  · exact (ocr_partial_failure_tolerated demoPages 1 "tesseract timeout" (by decide)
      (by rfl)).2.1 0 (by decide) (strOf "alpha") rfl
  · exact (ocr_partial_failure_tolerated demoPages 1 "tesseract timeout" (by decide)
      (by rfl)).2.2.1 2 (by decide) (strOf "gamma") rfl
  · exact (ocr_partial_failure_tolerated demoPages 1 "tesseract timeout" (by decide)
      (by rfl)).2.2.2

/-- Claim C9 counterexample: the OCR extractor does not process multi-page
input with adaptive batching — on a two-page input `_read_pdf_ocr`
produces the sequential processor's output (trailing separator after the
last page), which differs from what the batching path would produce, so
the batching path is not the one invoked. -/
theorem ocr_sequential_dispatch_counterexample :
    readPdfOcrDispatch demoPagesOk = strOf "a\n\nb\n\n" ∧
    processOcrInBatches true demoPagesOk = strOf "a\n\nb" ∧
    readPdfOcrDispatch demoPagesOk ≠ processOcrInBatches true demoPagesOk := by decide

/-- Claim C9 (amended): the adaptive-batching machinery exists with the
claimed shape — small documents (≤ 5 pages) in one batch, larger ones in
batches of 2–8 pages, worker pool of size `min(max_workers, batch_size)`
— but `_read_pdf_ocr` dispatches every input to the sequential
single-page processor, so the batching path (`_process_ocr_in_batches`)
is dead code. -/
theorem ocr_batching_dead_code_amended :
    (∀ pages : List PageOcr, readPdfOcrDispatch pages = processOcrSequential pages) ∧
    (∀ n : Nat, n ≤ 5 → getBatchSize true n = n) ∧
    (∀ n : Nat, 5 < n → 2 ≤ getBatchSize true n ∧ getBatchSize true n ≤ 8) ∧
    (∀ maxWorkers batchSize : Nat,
      getWorkerCount maxWorkers batchSize = min maxWorkers batchSize) := by
  refine ⟨fun pages => rfl, ?_, getBatchSize_bounds, fun mw bs => rfl⟩
  intro n h
  unfold getBatchSize
  rw [if_neg (by simp : ¬ (true = false)), if_pos h]

/-- Claim C9 witness: the batch-size formulas at concrete page counts and
the sequential dispatch at a concrete input. -/
theorem ocr_batching_dead_code_witness :
    readPdfOcrDispatch demoPagesOk = processOcrSequential demoPagesOk ∧
    getBatchSize true 3 = 3 ∧
    (2 ≤ getBatchSize true 12 ∧ getBatchSize true 12 ≤ 8) ∧
    getWorkerCount 4 3 = min 4 3 :=
  ⟨ocr_batching_dead_code_amended.1 demoPagesOk,
   ocr_batching_dead_code_amended.2.1 3 (by norm_num),
   ocr_batching_dead_code_amended.2.2.1 12 (by norm_num),
   ocr_batching_dead_code_amended.2.2.2 4 3⟩

/-- Claim C10: a caller-supplied `top_k` of 0 or `min_score` of 0.0 is
silently replaced by the configured default through the falsy-value
checks (`pyOrNat`/`pyOrQ` model `x or default`): with `top_k = 0` and
`min_score = 0.0` the effective values are the configured 5 and 0.7, and
against an index holding a matching record, `retrieve(query, top_k=0)`
returns a non-empty list (its hit carrying the configured threshold the
backend was actually given). -/
theorem falsy_defaults_override_zero :
    pyOrNat (some 0) defaultRagCfg.topK = defaultRagCfg.topK ∧
    pyOrQ (some 0) defaultRagCfg.minScore = defaultRagCfg.minScore ∧
    retrieve demoEchoEnv defaultRagCfg (strOf "q") (some 0) (some 0) none
      = [⟨strOf "p", defaultRagCfg.minScore, demoPayloadEmpty⟩] ∧
    retrieve demoEchoEnv defaultRagCfg (strOf "q") (some 0) (some 0) none ≠ [] := by
  have e1 : pyOrQ (some 0) defaultRagCfg.minScore = defaultRagCfg.minScore := by
    show (if (0:ℚ) = 0 then defaultRagCfg.minScore else 0) = defaultRagCfg.minScore
    rw [if_pos rfl]
  have e2 : pyOrQ (some defaultRagCfg.minScore) defaultRagCfg.minScore
      = defaultRagCfg.minScore := by
    show (if defaultRagCfg.minScore = 0 then defaultRagCfg.minScore else defaultRagCfg.minScore)
      = defaultRagCfg.minScore
    split <;> rfl
  have hret : retrieve demoEchoEnv defaultRagCfg (strOf "q") (some 0) (some 0) none
      = [⟨strOf "p", defaultRagCfg.minScore, demoPayloadEmpty⟩] := by
    unfold retrieve retrieveBody vectorStoreSearch demoEchoEnv demoEchoBackend
    dsimp only
    rw [e1, e2]
    rfl
  exact ⟨rfl, e1, hret, by rw [hret]; simp⟩

end RagWa
